import Mathlib

/-!
Verification development for the blind-box NFT allocation service
(`app.py`, `database.py`, `nft_data.py`).

The two SQLite tables are embedded as Lean lists:
  * `nft_inventory`  — rows `(item_id, name, image_url, is_assigned)`;
  * `assigned_nfts`  — rows `(order_id, customer_email, nft_id, nft_name, nft_image)`.

Randomness (`ORDER BY RANDOM() LIMIT 1`) is embedded by passing an explicit
random draw `r : Nat`: the query returns the row at index `r % n` of the list
of currently-unassigned rows (`n` its length).  Storage failures
(`sqlite3.Error` raised inside a transaction) are embedded by an explicit
`err : Bool` parameter: when true, the transaction's writes roll back and the
handler returns the value the Python `except sqlite3.Error` branch returns.
-/

/-- A row of the `nft_inventory` table (`database.py` lines 31-38, `app.py`
lines 59-67): stable identifier, display name, image URL, assigned flag
(`is_assigned INTEGER DEFAULT 0`, embedded as `Bool`). -/
structure InventoryRow where
  item_id : String
  name : String
  image_url : String
  is_assigned : Bool
deriving DecidableEq

/-- A row of the `assigned_nfts` table (`database.py` lines 65-75, `app.py`
lines 70-79): the `order_id` column carries a UNIQUE constraint. -/
structure AssignmentRow where
  order_id : String
  customer_email : String
  nft_id : String
  nft_name : String
  nft_image : String
deriving DecidableEq

/-- The database state: contents of the two tables. -/
structure DBState where
  inventory : List InventoryRow
  assignments : List AssignmentRow
deriving DecidableEq

/-- The dictionary `{'nft_id'/'id', 'name', 'image_url'}` that
`get_unassigned_nft` / `assign_nft_to_order` return on success. -/
structure NFTInfo where
  id : String
  name : String
  image_url : String
deriving DecidableEq

/-- The projection of an inventory row to the returned dictionary. -/
def toInfo (row : InventoryRow) : NFTInfo :=
  ⟨row.item_id, row.name, row.image_url⟩

/-- An element of the seed list (`nft_data.py` items: keys `nft_id`,
`image_url`, `name`). -/
structure SeedItem where
  nft_id : String
  image_url : String
  name : String
deriving DecidableEq

/-- A seed item as the freshly inserted inventory row (`INSERT INTO
nft_inventory (nft_id, image_url, name) VALUES (?, ?, ?)`; `is_assigned`
defaults to 0). -/
def seedRow (it : SeedItem) : InventoryRow :=
  ⟨it.nft_id, it.name, it.image_url, false⟩

/-- `database.py` `init_db(nft_items)` (lines 13-83): creates the tables and,
when `SELECT COUNT(*) FROM nft_inventory` returns 0, bulk-inserts the seed
items.  `nft_id` is the PRIMARY KEY, so a batch containing a duplicate id
makes `executemany` raise `IntegrityError`; the handler catches it and the
connection closes without a commit, leaving the table empty — embedded as the
`Nodup` guard.  (`app.py`'s `init_db`, lines 53-97, is the same logic with a
fixed seed list.) -/
def init_db (nft_items : List SeedItem) (s : DBState) : DBState :=
  if s.inventory.length = 0 then
    if (nft_items.map SeedItem.nft_id).Nodup then
      { s with inventory := nft_items.map seedRow }
    else s
  else s

/-- The rows with `is_assigned = 0` (`WHERE is_assigned = 0`). -/
def unassignedOf (inv : List InventoryRow) : List InventoryRow :=
  inv.filter (fun row => !row.is_assigned)

/-- `SELECT ... FROM nft_inventory WHERE is_assigned = 0 ORDER BY RANDOM()
LIMIT 1` (`database.py` line 103, `app.py` line 118), given the random draw
`r`: the unassigned row at index `r % n`, or `none` when no unassigned row
exists. -/
def pickRandom (r : Nat) (inv : List InventoryRow) : Option InventoryRow :=
  (unassignedOf inv)[r % (unassignedOf inv).length]?

/-- `UPDATE nft_inventory SET is_assigned = 1 WHERE nft_id = ?`
(`database.py` line 109, `app.py` line 124). -/
def markAssigned (x : String) (inv : List InventoryRow) : List InventoryRow :=
  inv.map (fun row => if row.item_id = x then { row with is_assigned := true } else row)

/-- `database.py` `get_unassigned_nft()` (lines 85-124): inside one
`BEGIN IMMEDIATE` transaction, select a random unassigned row and mark it
assigned, committing both together; return its dictionary.  With no
unassigned row left, roll back and return `None`.  `err` embeds an
`sqlite3.Error` raised inside the transaction: the `except` branch rolls back
(state unchanged) and returns `None` (lines 117-121). -/
def get_unassigned_nft (err : Bool) (r : Nat) (s : DBState) : Option NFTInfo × DBState :=
  if err then (none, s)
  else
    match pickRandom r s.inventory with
    | some row =>
        (some (toInfo row), { s with inventory := markAssigned row.item_id s.inventory })
    | none => (none, s)

/-- `SELECT ... FROM assigned_nfts WHERE order_id = ?` followed by
`fetchone()` (`app.py` lines 108-109): the first assignment row for the
order, if any. -/
def findAssignment (asgs : List AssignmentRow) (oid : String) : Option AssignmentRow :=
  asgs.find? (fun a => a.order_id == oid)

/-- `database.py` `record_assignment(...)` (lines 126-153): `INSERT INTO
assigned_nfts ...`; the UNIQUE constraint on `assigned_to_order_id` makes the
insert raise `IntegrityError` when a row for `order_id` already exists, in
which case nothing is inserted and the function returns `False`. -/
def record_assignment (nid iu nm oid em : String) (s : DBState) : Bool × DBState :=
  if s.assignments.any (fun a => a.order_id == oid) then (false, s)
  else (true, { s with assignments := s.assignments ++ [⟨oid, em, nid, nm, iu⟩] })

/-- `database.py` `check_order_assigned(order_id)` (lines 155-171):
`SELECT COUNT(*) FROM assigned_nfts WHERE assigned_to_order_id = ?` compared
with 0. -/
def check_order_assigned (oid : String) (s : DBState) : Bool :=
  0 < (s.assignments.filter (fun a => a.order_id == oid)).length

/-- `app.py` `assign_nft_to_order(order_id, customer_email)` (lines 102-149):
return the existing assignment for `order_id` unchanged if one exists;
otherwise pick a random unassigned inventory row, mark it assigned and insert
the assignment row, committing both writes together (single `conn.commit()`
at line 128); with no unassigned row, return `None`.  `err` embeds an
`sqlite3.Error` raised by the UPDATE/INSERT/commit writes (an
`IntegrityError` from a duplicate `order_id` on the INSERT included): the
`except sqlite3.Error` branch (lines 139-143) rolls back both writes and
returns `None`. -/
def assign_nft_to_order (err : Bool) (r : Nat) (order_id customer_email : String)
    (s : DBState) : Option NFTInfo × DBState :=
  match findAssignment s.assignments order_id with
  | some a => (some ⟨a.nft_id, a.nft_name, a.nft_image⟩, s)
  | none =>
    match pickRandom r s.inventory with
    | none => (none, s)
    | some row =>
      if err then (none, s)
      else
        (some (toInfo row),
         ⟨markAssigned row.item_id s.inventory,
          s.assignments ++ [⟨order_id, customer_email, row.item_id, row.name, row.image_url⟩]⟩)

/-- One operation against the store, for stating invariants over arbitrary
operation sequences. -/
inductive Op where
  | seed (items : List SeedItem)
  | claim (err : Bool) (r : Nat)
  | alloc (err : Bool) (r : Nat) (oid em : String)
  | record (nid iu nm oid em : String)

/-- The state reached by one operation (return values projected away). -/
def applyOp (s : DBState) (op : Op) : DBState :=
  match op with
  | Op.seed items => init_db items s
  | Op.claim e r => (get_unassigned_nft e r s).2
  | Op.alloc e r oid em => (assign_nft_to_order e r oid em s).2
  | Op.record n i m o e => (record_assignment n i m o e s).2

/-- The state reached by a sequence of operations. -/
def runOps (ops : List Op) (s : DBState) : DBState :=
  ops.foldl applyOp s

/-- The schema invariant `item_id TEXT NOT NULL UNIQUE` / `PRIMARY KEY`:
inventory identifiers are pairwise distinct. -/
abbrev NodupIds (s : DBState) : Prop :=
  (s.inventory.map InventoryRow.item_id).Nodup

/-- The allocation-state invariant: inventory ids are pairwise distinct, no
two assignment rows share an `nft_id` or an `order_id`, and every inventory
row referenced by an assignment is marked assigned. -/
structure AllocInv (s : DBState) : Prop where
  inv_nodup : (s.inventory.map InventoryRow.item_id).Nodup
  asg_items_nodup : (s.assignments.map AssignmentRow.nft_id).Nodup
  asg_keys_nodup : (s.assignments.map AssignmentRow.order_id).Nodup
  asg_assigned : ∀ a ∈ s.assignments, ∀ row ∈ s.inventory,
    row.item_id = a.nft_id → row.is_assigned = true

/-- Repeated calls to `assign_nft_to_order` with one fixed `order_id`:
each element of `calls` gives the error flag, the random draw and the
customer email of one call. -/
def allocCalls (k : String) (calls : List (Bool × Nat × String)) (s : DBState) : DBState :=
  calls.foldl (fun st c => (assign_nft_to_order c.1 c.2.1 k c.2.2 st).2) s


/-! ### Basic lemmas about the embedded queries -/

theorem mem_unassignedOf {inv : List InventoryRow} {row : InventoryRow} :
    row ∈ unassignedOf inv ↔ row ∈ inv ∧ row.is_assigned = false := by
  simp [unassignedOf]

theorem markAssigned_map_item_id (x : String) (inv : List InventoryRow) :
    (markAssigned x inv).map InventoryRow.item_id = inv.map InventoryRow.item_id := by
  induction inv with
  | nil => rfl
  | cons hd tl ih =>
    simp only [markAssigned, List.map_cons] at ih ⊢
    by_cases h : hd.item_id = x <;> simp [h, ih]

theorem markAssigned_length (x : String) (inv : List InventoryRow) :
    (markAssigned x inv).length = inv.length := by
  simp [markAssigned]

theorem mem_markAssigned {x : String} {inv : List InventoryRow} {row' : InventoryRow} :
    row' ∈ markAssigned x inv ↔
      ∃ row ∈ inv,
        row' = if row.item_id = x then { row with is_assigned := true } else row := by
  simp only [markAssigned, List.mem_map]
  constructor
  · rintro ⟨row, hrow, rfl⟩; exact ⟨row, hrow, rfl⟩
  · rintro ⟨row, hrow, rfl⟩; exact ⟨row, hrow, rfl⟩

theorem markAssigned_assigned {x : String} {inv : List InventoryRow} {row' : InventoryRow}
    (h : row' ∈ markAssigned x inv) (hx : row'.item_id = x) : row'.is_assigned = true := by
  rcases mem_markAssigned.mp h with ⟨row, _, rfl⟩
  by_cases hr : row.item_id = x
  · simp [hr]
  · simp only [if_neg hr] at hx ⊢
    exact absurd hx hr

theorem markAssigned_mono {x y : String} {inv : List InventoryRow}
    (h : ∀ row ∈ inv, row.item_id = y → row.is_assigned = true) :
    ∀ row' ∈ markAssigned x inv, row'.item_id = y → row'.is_assigned = true := by
  intro row' hmem hy
  rcases mem_markAssigned.mp hmem with ⟨row, hrow, rfl⟩
  by_cases hr : row.item_id = x
  · simp [hr]
  · simp only [if_neg hr] at hy ⊢
    exact h row hrow hy

theorem pickRandom_none {r : Nat} {inv : List InventoryRow}
    (h : unassignedOf inv = []) : pickRandom r inv = none := by
  simp [pickRandom, h]

theorem pickRandom_ne_nil {r : Nat} {inv : List InventoryRow}
    (h : unassignedOf inv ≠ []) :
    ∃ hlt : r % (unassignedOf inv).length < (unassignedOf inv).length,
      pickRandom r inv = some ((unassignedOf inv).get ⟨r % (unassignedOf inv).length, hlt⟩) := by
  have hpos : 0 < (unassignedOf inv).length := List.length_pos.mpr h
  have hlt := Nat.mod_lt r hpos
  exact ⟨hlt, by simp [pickRandom, List.getElem?_eq_getElem hlt]⟩

theorem pickRandom_mem {r : Nat} {inv : List InventoryRow} {row : InventoryRow}
    (h : pickRandom r inv = some row) : row ∈ inv ∧ row.is_assigned = false := by
  have hu : row ∈ unassignedOf inv := by
    rcases List.getElem?_eq_some_iff.mp h with ⟨hlt, heq⟩
    exact heq ▸ List.getElem_mem hlt
  exact mem_unassignedOf.mp hu

theorem findAssignment_some {asgs : List AssignmentRow} {oid : String} {a : AssignmentRow}
    (h : findAssignment asgs oid = some a) : a ∈ asgs ∧ a.order_id = oid := by
  refine ⟨List.mem_of_find?_eq_some h, ?_⟩
  have hp := List.find?_some h
  simpa using hp

theorem findAssignment_none {asgs : List AssignmentRow} {oid : String}
    (h : findAssignment asgs oid = none) : ∀ a ∈ asgs, a.order_id ≠ oid := by
  intro a ha
  have hp := List.find?_eq_none.mp h a ha
  simpa using hp

theorem findAssignment_of_forall {asgs : List AssignmentRow} {oid : String}
    (h : ∀ a ∈ asgs, a.order_id ≠ oid) : findAssignment asgs oid = none := by
  refine List.find?_eq_none.mpr ?_
  intro a ha
  simpa using h a ha

theorem findAssignment_append (asgs₁ asgs₂ : List AssignmentRow) (oid : String) :
    findAssignment (asgs₁ ++ asgs₂) oid =
      (findAssignment asgs₁ oid).or (findAssignment asgs₂ oid) := by
  simp [findAssignment, List.find?_append]

theorem check_order_assigned_true_iff {oid : String} {s : DBState} :
    check_order_assigned oid s = true ↔ ∃ a ∈ s.assignments, a.order_id = oid := by
  constructor
  · intro h
    have hne : (s.assignments.filter (fun a => a.order_id == oid)) ≠ [] := by
      intro hnil
      simp only [check_order_assigned, hnil] at h
      exact absurd h (by decide)
    rcases List.exists_mem_of_ne_nil _ hne with ⟨a, ha⟩
    rcases List.mem_filter.mp ha with ⟨hmem, hpred⟩
    exact ⟨a, hmem, by simpa using hpred⟩
  · rintro ⟨a, ha, rfl⟩
    have : a ∈ s.assignments.filter (fun b => b.order_id == a.order_id) :=
      List.mem_filter.mpr ⟨ha, by simp⟩
    have hpos : 0 < (s.assignments.filter (fun b => b.order_id == a.order_id)).length :=
      List.length_pos.mpr (List.ne_nil_of_mem this)
    simpa [check_order_assigned] using hpos

/-! ### Case analyses of the two allocation operations -/

theorem get_unassigned_some {e : Bool} {r : Nat} {s : DBState} {info : NFTInfo} {s' : DBState}
    (h : get_unassigned_nft e r s = (some info, s')) :
    e = false ∧ ∃ row, pickRandom r s.inventory = some row ∧ info = toInfo row ∧
      s' = { s with inventory := markAssigned row.item_id s.inventory } := by
  cases e with
  | true =>
    have h2 : ((none : Option NFTInfo), s) = (some info, s') := h
    injection h2 with hfst hsnd
    exact absurd hfst (by simp)
  | false =>
    refine ⟨rfl, ?_⟩
    unfold get_unassigned_nft at h
    cases hp : pickRandom r s.inventory with
    | none =>
      rw [hp] at h
      have h2 : ((none : Option NFTInfo), s) = (some info, s') := h
      injection h2 with hfst hsnd
      exact absurd hfst (by simp)
    | some row =>
      rw [hp] at h
      have h2 : (some (toInfo row),
          { s with inventory := markAssigned row.item_id s.inventory }) = (some info, s') := h
      injection h2 with hfst hsnd
      injection hfst with hinfo
      exact ⟨row, rfl, hinfo.symm, hsnd.symm⟩

theorem get_unassigned_err (r : Nat) (s : DBState) :
    get_unassigned_nft true r s = (none, s) := rfl

theorem assign_some_cases {e : Bool} {r : Nat} {k em : String} {s : DBState}
    {info : NFTInfo} {s' : DBState}
    (h : assign_nft_to_order e r k em s = (some info, s')) :
    (∃ a, findAssignment s.assignments k = some a ∧
        info = ⟨a.nft_id, a.nft_name, a.nft_image⟩ ∧ s' = s) ∨
    (∃ row, findAssignment s.assignments k = none ∧ e = false ∧
        pickRandom r s.inventory = some row ∧ info = toInfo row ∧
        s' = ⟨markAssigned row.item_id s.inventory,
              s.assignments ++ [⟨k, em, row.item_id, row.name, row.image_url⟩]⟩) := by
  unfold assign_nft_to_order at h
  cases hf : findAssignment s.assignments k with
  | some a =>
    rw [hf] at h
    have h2 : ((some ⟨a.nft_id, a.nft_name, a.nft_image⟩ : Option NFTInfo), s) = (some info, s') := h
    injection h2 with hfst hsnd
    injection hfst with hinfo
    exact Or.inl ⟨a, rfl, hinfo.symm, hsnd.symm⟩
  | none =>
    rw [hf] at h
    cases hp : pickRandom r s.inventory with
    | none =>
      rw [hp] at h
      have h2 : ((none : Option NFTInfo), s) = (some info, s') := h
      injection h2 with hfst hsnd
      exact absurd hfst (by simp)
    | some row =>
      rw [hp] at h
      cases e with
      | true =>
        have h2 : ((none : Option NFTInfo), s) = (some info, s') := h
        injection h2 with hfst hsnd
        exact absurd hfst (by simp)
      | false =>
        have h2 : (some (toInfo row),
            (⟨markAssigned row.item_id s.inventory,
              s.assignments ++ [⟨k, em, row.item_id, row.name, row.image_url⟩]⟩ : DBState)) =
            (some info, s') := h
        injection h2 with hfst hsnd
        injection hfst with hinfo
        exact Or.inr ⟨row, rfl, rfl, rfl, hinfo.symm, hsnd.symm⟩

theorem assign_state_cases (e : Bool) (r : Nat) (k em : String) (s : DBState) :
    (assign_nft_to_order e r k em s).2 = s ∨
    (∃ row, findAssignment s.assignments k = none ∧ e = false ∧
        pickRandom r s.inventory = some row ∧
        (assign_nft_to_order e r k em s).2 =
          ⟨markAssigned row.item_id s.inventory,
           s.assignments ++ [⟨k, em, row.item_id, row.name, row.image_url⟩]⟩) := by
  unfold assign_nft_to_order
  cases hf : findAssignment s.assignments k with
  | some a => exact Or.inl rfl
  | none =>
    cases hp : pickRandom r s.inventory with
    | none => exact Or.inl rfl
    | some row =>
      cases e with
      | true => exact Or.inl rfl
      | false => exact Or.inr ⟨row, rfl, rfl, rfl, rfl⟩

theorem assign_err_state (r : Nat) (k em : String) (s : DBState) :
    (assign_nft_to_order true r k em s).2 = s := by
  unfold assign_nft_to_order
  cases hf : findAssignment s.assignments k with
  | some a => rfl
  | none =>
    cases hp : pickRandom r s.inventory with
    | none => rfl
    | some row => rfl

/-! ### Preservation of the allocation-state invariant -/

theorem assign_some_linked {e : Bool} {r : Nat} {k em : String} {s : DBState}
    {info : NFTInfo} {s' : DBState}
    (h : assign_nft_to_order e r k em s = (some info, s')) :
    ∃ a ∈ s'.assignments, a.nft_id = info.id ∧ a.order_id = k := by
  rcases assign_some_cases h with ⟨a, hf, hinfo, rfl⟩ | ⟨row, hf, he, hp, hinfo, rfl⟩
  · exact ⟨a, (findAssignment_some hf).1, by rw [hinfo], (findAssignment_some hf).2⟩
  · refine ⟨⟨k, em, row.item_id, row.name, row.image_url⟩, ?_, ?_, rfl⟩
    · exact List.mem_append_right _ (List.mem_singleton.mpr rfl)
    · rw [hinfo]; rfl

theorem assign_some_marks {e : Bool} {r : Nat} {k em : String} {s : DBState}
    {info : NFTInfo} {s' : DBState}
    (h : assign_nft_to_order e r k em s = (some info, s'))
    (hall : ∀ a ∈ s.assignments, ∀ row ∈ s.inventory,
      row.item_id = a.nft_id → row.is_assigned = true) :
    ∀ row' ∈ s'.inventory, row'.item_id = info.id → row'.is_assigned = true := by
  rcases assign_some_cases h with ⟨a, hf, hinfo, rfl⟩ | ⟨row, hf, he, hp, hinfo, rfl⟩
  · intro row' hmem hid
    exact hall a (findAssignment_some hf).1 row' hmem (by rw [hinfo] at hid; exact hid)
  · intro row' hmem hid
    exact markAssigned_assigned hmem (by rw [hinfo] at hid; exact hid)

theorem assign_preserves_inv (e : Bool) (r : Nat) (k em : String) {s : DBState}
    (hInv : AllocInv s) : AllocInv (assign_nft_to_order e r k em s).2 := by
  rcases assign_state_cases e r k em s with hs | ⟨row, hf, he, hp, hs⟩
  · rw [hs]; exact hInv
  · rw [hs]
    obtain ⟨hrow_mem, hrow_un⟩ := pickRandom_mem hp
    constructor
    · show ((markAssigned row.item_id s.inventory).map InventoryRow.item_id).Nodup
      rw [markAssigned_map_item_id]
      exact hInv.inv_nodup
    · show ((s.assignments ++ [_]).map AssignmentRow.nft_id).Nodup
      rw [List.map_append]
      refine List.Nodup.append hInv.asg_items_nodup (List.nodup_singleton _) ?_
      intro x hx hx'
      rcases List.mem_map.mp hx with ⟨a, ha, hax⟩
      have hxi : x = row.item_id := by simpa using hx'
      have hassigned := hInv.asg_assigned a ha row hrow_mem (by rw [hax, hxi])
      rw [hassigned] at hrow_un
      exact absurd hrow_un (by decide)
    · show ((s.assignments ++ [_]).map AssignmentRow.order_id).Nodup
      rw [List.map_append]
      refine List.Nodup.append hInv.asg_keys_nodup (List.nodup_singleton _) ?_
      intro x hx hx'
      rcases List.mem_map.mp hx with ⟨a, ha, hax⟩
      have hxk : x = k := by simpa using hx'
      exact findAssignment_none hf a ha (by rw [hax, hxk])
    · intro a ha row' hrow' hid
      rcases List.mem_append.mp ha with ha | ha
      · exact markAssigned_mono (fun q hq hqid => hInv.asg_assigned a ha q hq hqid) row' hrow' hid
      · have hak : a = ⟨k, em, row.item_id, row.name, row.image_url⟩ := List.mem_singleton.mp ha
        refine markAssigned_assigned hrow' ?_
        rw [hid, hak]

/-! ### Lemmas over operation sequences -/

theorem seed_map_item_id (items : List SeedItem) :
    ((items.map seedRow).map InventoryRow.item_id) = items.map SeedItem.nft_id := by
  rw [List.map_map]
  rfl

theorem init_db_nonempty {items : List SeedItem} {s : DBState}
    (h : s.inventory ≠ []) : init_db items s = s := by
  unfold init_db
  rw [if_neg (by simpa [List.length_eq_zero] using h)]

theorem applyOp_nodup {s : DBState} (op : Op) (h : NodupIds s) : NodupIds (applyOp s op) := by
  cases op with
  | seed items =>
    show NodupIds (init_db items s)
    unfold init_db
    by_cases h0 : s.inventory.length = 0
    · rw [if_pos h0]
      by_cases hnd : (items.map SeedItem.nft_id).Nodup
      · rw [if_pos hnd]
        show ((items.map seedRow).map InventoryRow.item_id).Nodup
        rw [seed_map_item_id]
        exact hnd
      · rw [if_neg hnd]; exact h
    · rw [if_neg h0]; exact h
  | claim e r =>
    show NodupIds (get_unassigned_nft e r s).2
    cases e with
    | true => exact h
    | false =>
      unfold get_unassigned_nft
      cases hp : pickRandom r s.inventory with
      | none => exact h
      | some row =>
        show ((markAssigned row.item_id s.inventory).map InventoryRow.item_id).Nodup
        rw [markAssigned_map_item_id]
        exact h
  | alloc e r oid em =>
    show NodupIds (assign_nft_to_order e r oid em s).2
    rcases assign_state_cases e r oid em s with hs | ⟨row, _, _, _, hs⟩
    · rw [hs]; exact h
    · rw [hs]
      show ((markAssigned row.item_id s.inventory).map InventoryRow.item_id).Nodup
      rw [markAssigned_map_item_id]
      exact h
  | record n i m o e =>
    show NodupIds (record_assignment n i m o e s).2
    unfold record_assignment
    by_cases hc : s.assignments.any (fun a => a.order_id == o)
    · rw [if_pos hc]; exact h
    · rw [if_neg hc]; exact h

/-- The item `x` is (and stays) marked assigned: every inventory row carrying
identifier `x` has `is_assigned = true`. -/
def AssignedAt (x : String) (s : DBState) : Prop :=
  ∀ row ∈ s.inventory, row.item_id = x → row.is_assigned = true

theorem applyOp_assignedAt {x : String} {s : DBState} (op : Op)
    (hne : s.inventory ≠ []) (h : AssignedAt x s) :
    (applyOp s op).inventory ≠ [] ∧ AssignedAt x (applyOp s op) := by
  cases op with
  | seed items =>
    show (init_db items s).inventory ≠ [] ∧ AssignedAt x (init_db items s)
    rw [init_db_nonempty hne]
    exact ⟨hne, h⟩
  | claim e r =>
    show (get_unassigned_nft e r s).2.inventory ≠ [] ∧ AssignedAt x (get_unassigned_nft e r s).2
    cases e with
    | true => exact ⟨hne, h⟩
    | false =>
      unfold get_unassigned_nft
      cases hp : pickRandom r s.inventory with
      | none => exact ⟨hne, h⟩
      | some row =>
        refine ⟨?_, markAssigned_mono h⟩
        intro hnil
        have hmark : markAssigned row.item_id s.inventory = [] := hnil
        have hlen := markAssigned_length row.item_id s.inventory
        rw [hmark] at hlen
        exact hne (List.length_eq_zero.mp hlen.symm)
  | alloc e r oid em =>
    show (assign_nft_to_order e r oid em s).2.inventory ≠ [] ∧
      AssignedAt x (assign_nft_to_order e r oid em s).2
    rcases assign_state_cases e r oid em s with hs | ⟨row, _, _, _, hs⟩
    · rw [hs]; exact ⟨hne, h⟩
    · rw [hs]
      refine ⟨?_, markAssigned_mono h⟩
      intro hnil
      have hmark : markAssigned row.item_id s.inventory = [] := hnil
      have hlen := markAssigned_length row.item_id s.inventory
      rw [hmark] at hlen
      exact hne (List.length_eq_zero.mp hlen.symm)
  | record n i m o e =>
    show (record_assignment n i m o e s).2.inventory ≠ [] ∧
      AssignedAt x (record_assignment n i m o e s).2
    unfold record_assignment
    by_cases hc : s.assignments.any (fun a => a.order_id == o)
    · rw [if_pos hc]; exact ⟨hne, h⟩
    · rw [if_neg hc]; exact ⟨hne, h⟩

theorem runOps_nodup (ops : List Op) {s : DBState} (h : NodupIds s) :
    NodupIds (runOps ops s) := by
  induction ops generalizing s with
  | nil => exact h
  | cons op tl ih => exact ih (applyOp_nodup op h)

theorem runOps_assignedAt (ops : List Op) {x : String} {s : DBState}
    (hne : s.inventory ≠ []) (h : AssignedAt x s) :
    (runOps ops s).inventory ≠ [] ∧ AssignedAt x (runOps ops s) := by
  induction ops generalizing s with
  | nil => exact ⟨hne, h⟩
  | cons op tl ih =>
    obtain ⟨hne', h'⟩ := applyOp_assignedAt op hne h
    exact ih hne' h'

/-! ### Claim theorems -/

theorem assign_fixed {k : String} {s1 : DBState} {info : NFTInfo}
    (ha : ∃ a, findAssignment s1.assignments k = some a ∧
      (⟨a.nft_id, a.nft_name, a.nft_image⟩ : NFTInfo) = info) :
    ∀ (e : Bool) (r : Nat) (em : String), assign_nft_to_order e r k em s1 = (some info, s1) := by
  rcases ha with ⟨a, hf, hinfo⟩
  intro e r em
  unfold assign_nft_to_order
  rw [hf]
  show (some (⟨a.nft_id, a.nft_name, a.nft_image⟩ : NFTInfo), s1) = (some info, s1)
  rw [hinfo]

/-- C1: `assign_nft_to_order` is idempotent per request key (`order_id`): once
a call has succeeded and returned an item, every subsequent call with the same
`order_id` returns the same item and leaves the state unchanged — so it
creates no second assignment row and claims no further inventory item — and
any sequence of such calls leaves the state unchanged. -/
theorem C1_allocate_idempotent_per_key
    (e1 : Bool) (r1 : Nat) (k em1 : String) (s : DBState) (info : NFTInfo) (s1 : DBState)
    (h : assign_nft_to_order e1 r1 k em1 s = (some info, s1)) :
    (∀ (e2 : Bool) (r2 : Nat) (em2 : String),
      assign_nft_to_order e2 r2 k em2 s1 = (some info, s1)) ∧
    (∀ calls : List (Bool × Nat × String), allocCalls k calls s1 = s1) := by
  have hfix : ∃ a, findAssignment s1.assignments k = some a ∧
      (⟨a.nft_id, a.nft_name, a.nft_image⟩ : NFTInfo) = info := by
    rcases assign_some_cases h with ⟨a, hf, hinfo, rfl⟩ | ⟨row, hf, he, hp, hinfo, rfl⟩
    · exact ⟨a, hf, hinfo.symm⟩
    · refine ⟨⟨k, em1, row.item_id, row.name, row.image_url⟩, ?_, hinfo.symm⟩
      show findAssignment
        (s.assignments ++ [⟨k, em1, row.item_id, row.name, row.image_url⟩]) k = _
      rw [findAssignment_append, hf, Option.none_or]
      simp [findAssignment]
  have hone := assign_fixed hfix
  refine ⟨hone, ?_⟩
  intro calls
  induction calls with
  | nil => rfl
  | cons c tl ih =>
    show allocCalls k (c :: tl) s1 = s1
    unfold allocCalls
    rw [List.foldl_cons]
    have hstep : (assign_nft_to_order c.1 c.2.1 k c.2.2 s1).2 = s1 := by
      rw [hone c.1 c.2.1 c.2.2]
    rw [hstep]
    exact ih

theorem C1_witness :
    assign_nft_to_order false 0 "o1" "e@x" ⟨[⟨"A", "nA", "uA", false⟩], []⟩ =
      (some ⟨"A", "nA", "uA"⟩,
       ⟨[⟨"A", "nA", "uA", true⟩], [⟨"o1", "e@x", "A", "nA", "uA"⟩]⟩) ∧
    assign_nft_to_order true 5 "o1" "zz"
        ⟨[⟨"A", "nA", "uA", true⟩], [⟨"o1", "e@x", "A", "nA", "uA"⟩]⟩ =
      (some ⟨"A", "nA", "uA"⟩,
       ⟨[⟨"A", "nA", "uA", true⟩], [⟨"o1", "e@x", "A", "nA", "uA"⟩]⟩) :=
  ⟨by decide,
   (C1_allocate_idempotent_per_key false 0 "o1" "e@x" ⟨[⟨"A", "nA", "uA", false⟩], []⟩
      ⟨"A", "nA", "uA"⟩
      ⟨[⟨"A", "nA", "uA", true⟩], [⟨"o1", "e@x", "A", "nA", "uA"⟩]⟩
      (by decide)).1 true 5 "zz"⟩

/-- C2: under single-writer (sequential) execution, two calls to
`assign_nft_to_order` with distinct `order_id` values that both succeed
receive distinct item ids, and afterwards no two assignment rows reference
the same inventory item. -/
theorem C2_distinct_keys_distinct_items
    (e1 e2 : Bool) (r1 r2 : Nat) (k1 k2 em1 em2 : String) (s s1 s2 : DBState)
    (i1 i2 : NFTInfo)
    (hInv : AllocInv s) (hk : k1 ≠ k2)
    (h1 : assign_nft_to_order e1 r1 k1 em1 s = (some i1, s1))
    (h2 : assign_nft_to_order e2 r2 k2 em2 s1 = (some i2, s2)) :
    i1.id ≠ i2.id ∧ (s2.assignments.map AssignmentRow.nft_id).Nodup := by
  have hInv1 : AllocInv s1 := by
    have hpre := assign_preserves_inv e1 r1 k1 em1 hInv
    rw [h1] at hpre
    exact hpre
  have hInv2 : AllocInv s2 := by
    have hpre := assign_preserves_inv e2 r2 k2 em2 hInv1
    rw [h2] at hpre
    exact hpre
  refine ⟨?_, hInv2.asg_items_nodup⟩
  intro heq
  obtain ⟨a1, ha1, ha1id, ha1k⟩ := assign_some_linked h1
  rcases assign_some_cases h2 with ⟨a2, hf2, hinfo2, rfl⟩ | ⟨row2, hf2, he2, hp2, hinfo2, rfl⟩
  · obtain ⟨ha2mem, ha2k⟩ := findAssignment_some hf2
    have hnn : a1.nft_id = a2.nft_id := by rw [ha1id, heq, hinfo2]
    have ha12 : a1 = a2 :=
      List.inj_on_of_nodup_map hInv1.asg_items_nodup ha1 ha2mem hnn
    exact hk (by rw [← ha1k, ha12, ha2k])
  · obtain ⟨hr2mem, hr2un⟩ := pickRandom_mem hp2
    have hmarks := assign_some_marks h1 hInv.asg_assigned
    have hass := hmarks row2 hr2mem (by rw [heq, hinfo2]; rfl)
    rw [hass] at hr2un
    exact absurd hr2un (by decide)

theorem C2_witness :
    ("o1" : String) ≠ "o2" ∧
    ((⟨"A", "nA", "uA"⟩ : NFTInfo).id ≠ (⟨"B", "nB", "uB"⟩ : NFTInfo).id ∧
     ((⟨[⟨"A", "nA", "uA", true⟩, ⟨"B", "nB", "uB", true⟩],
        [⟨"o1", "e1", "A", "nA", "uA"⟩, ⟨"o2", "e2", "B", "nB", "uB"⟩]⟩ :
          DBState).assignments.map AssignmentRow.nft_id).Nodup) :=
  ⟨by decide,
   C2_distinct_keys_distinct_items false false 0 0 "o1" "o2" "e1" "e2"
     ⟨[⟨"A", "nA", "uA", false⟩, ⟨"B", "nB", "uB", false⟩], []⟩
     ⟨[⟨"A", "nA", "uA", true⟩, ⟨"B", "nB", "uB", false⟩], [⟨"o1", "e1", "A", "nA", "uA"⟩]⟩
     ⟨[⟨"A", "nA", "uA", true⟩, ⟨"B", "nB", "uB", true⟩],
      [⟨"o1", "e1", "A", "nA", "uA"⟩, ⟨"o2", "e2", "B", "nB", "uB"⟩]⟩
     ⟨"A", "nA", "uA"⟩ ⟨"B", "nB", "uB"⟩
     ⟨by decide, by decide, by decide, by decide⟩ (by decide) (by decide) (by decide)⟩

theorem get_unassigned_pick {r : Nat} {s : DBState} {row : InventoryRow}
    (hp : pickRandom r s.inventory = some row) :
    get_unassigned_nft false r s =
      (some (toInfo row), { s with inventory := markAssigned row.item_id s.inventory }) := by
  unfold get_unassigned_nft
  rw [hp]
  rfl

theorem get_unassigned_exhausted {r : Nat} {s : DBState}
    (h : unassignedOf s.inventory = []) :
    get_unassigned_nft false r s = (none, s) := by
  unfold get_unassigned_nft
  rw [pickRandom_none h]
  rfl

/-- C3: `get_unassigned_nft` — the `pick_and_claim_one` operation — run
without storage error: (a) when an unassigned row exists it returns an item
whose stored `is_assigned` flag was false at selection time and, in the same
atomic step, sets that item's flag to true; (b) when no unassigned row exists
it returns the pool-exhausted signal `None` and changes no row; (c) the
selection is uniform over the currently-unassigned rows: each unassigned row
is returned by exactly one random draw among the `n` draws `0, ..., n-1`,
`n` the number of unassigned rows. -/
theorem C3_pick_and_claim_one (s : DBState) (hnd : NodupIds s) :
    (∀ r : Nat, unassignedOf s.inventory ≠ [] →
      ∃ row ∈ s.inventory, row.is_assigned = false ∧
        get_unassigned_nft false r s =
          (some (toInfo row), { s with inventory := markAssigned row.item_id s.inventory }) ∧
        ∀ row' ∈ markAssigned row.item_id s.inventory,
          row'.item_id = row.item_id → row'.is_assigned = true) ∧
    (∀ r : Nat, unassignedOf s.inventory = [] →
      get_unassigned_nft false r s = (none, s)) ∧
    (∀ row ∈ s.inventory, row.is_assigned = false →
      ∃! i : Fin (unassignedOf s.inventory).length,
        (get_unassigned_nft false i.val s).1 = some (toInfo row)) := by
  refine ⟨?_, ?_, ?_⟩
  · intro r hne
    obtain ⟨hlt, hpick⟩ := pickRandom_ne_nil (r := r) hne
    obtain ⟨hmem, hun⟩ := pickRandom_mem hpick
    exact ⟨_, hmem, hun, get_unassigned_pick hpick,
      fun row' hrow' hid => markAssigned_assigned hrow' hid⟩
  · intro r hfull
    exact get_unassigned_exhausted hfull
  · intro row hmem hun
    have hrU : row ∈ unassignedOf s.inventory := mem_unassignedOf.mpr ⟨hmem, hun⟩
    have hneU : unassignedOf s.inventory ≠ [] := List.ne_nil_of_mem hrU
    have hsub : List.Sublist ((unassignedOf s.inventory).map InventoryRow.item_id)
        (s.inventory.map InventoryRow.item_id) :=
      List.Sublist.map _ (List.filter_sublist _)
    have hndU : ((unassignedOf s.inventory).map InventoryRow.item_id).Nodup :=
      List.Nodup.sublist hsub hnd
    have hndU' : (unassignedOf s.inventory).Nodup := List.Nodup.of_map _ hndU
    obtain ⟨n, hn, hget⟩ := List.mem_iff_getElem.mp hrU
    have hgn : (unassignedOf s.inventory).get ⟨n, hn⟩ = row := by
      rw [List.get_eq_getElem]; exact hget
    refine ⟨⟨n, hn⟩, ?_, ?_⟩
    · have hmod : n % (unassignedOf s.inventory).length = n := Nat.mod_eq_of_lt hn
      have hpick : pickRandom n s.inventory = some row := by
        show (unassignedOf s.inventory)[n % (unassignedOf s.inventory).length]? = some row
        rw [hmod, List.getElem?_eq_getElem hn, hget]
      show (get_unassigned_nft false n s).1 = some (toInfo row)
      rw [get_unassigned_pick hpick]
    · rintro ⟨j, hj⟩ hPj
      have hPj' : (get_unassigned_nft false j s).1 = some (toInfo row) := hPj
      have hmodj : j % (unassignedOf s.inventory).length = j := Nat.mod_eq_of_lt hj
      have hpickj : pickRandom j s.inventory =
          some ((unassignedOf s.inventory).get ⟨j, hj⟩) := by
        show (unassignedOf s.inventory)[j % (unassignedOf s.inventory).length]? = _
        rw [hmodj, List.getElem?_eq_getElem hj, List.get_eq_getElem]
      rw [get_unassigned_pick hpickj] at hPj'
      have htij : toInfo ((unassignedOf s.inventory).get ⟨j, hj⟩) = toInfo row :=
        Option.some.inj hPj' 
      have hid : ((unassignedOf s.inventory).get ⟨j, hj⟩).item_id = row.item_id :=
        congrArg NFTInfo.id htij
      have hrows : (unassignedOf s.inventory).get ⟨j, hj⟩ = row :=
        List.inj_on_of_nodup_map hndU (List.get_mem _ _ _) hrU hid
      exact (List.Nodup.get_inj_iff hndU').mp (hrows.trans hgn.symm)

/-- Concrete two-row store used to witness the `C3` theorem. -/
def wS3 : DBState := ⟨[⟨"A", "nA", "uA", false⟩, ⟨"B", "nB", "uB", true⟩], []⟩

theorem C3_witness :
    NodupIds wS3 ∧
    ((∀ r : Nat, unassignedOf wS3.inventory ≠ [] →
      ∃ row ∈ wS3.inventory, row.is_assigned = false ∧
        get_unassigned_nft false r wS3 =
          (some (toInfo row), { wS3 with inventory := markAssigned row.item_id wS3.inventory }) ∧
        ∀ row' ∈ markAssigned row.item_id wS3.inventory,
          row'.item_id = row.item_id → row'.is_assigned = true) ∧
    (∀ r : Nat, unassignedOf wS3.inventory = [] →
      get_unassigned_nft false r wS3 = (none, wS3)) ∧
    (∀ row ∈ wS3.inventory, row.is_assigned = false →
      ∃! i : Fin (unassignedOf wS3.inventory).length,
        (get_unassigned_nft false i.val wS3).1 = some (toInfo row))) :=
  ⟨by decide, C3_pick_and_claim_one wS3 (by decide)⟩

/-- C4: when every inventory item is already assigned and no assignment row
exists for the request key, `assign_nft_to_order` returns the pool-exhausted
outcome `None`, creates no assignment row, and leaves both tables unchanged. -/
theorem C4_pool_exhausted (e : Bool) (r : Nat) (k em : String) (s : DBState)
    (hfull : ∀ row ∈ s.inventory, row.is_assigned = true)
    (hnew : ∀ a ∈ s.assignments, a.order_id ≠ k) :
    assign_nft_to_order e r k em s = (none, s) := by
  have hempty : unassignedOf s.inventory = [] := by
    unfold unassignedOf
    apply List.filter_eq_nil_iff.mpr
    intro row hrow
    simp [hfull row hrow]
  have hf : findAssignment s.assignments k = none := findAssignment_of_forall hnew
  unfold assign_nft_to_order
  rw [hf, pickRandom_none hempty]

theorem C4_witness :
    (∀ row ∈ ([⟨"A", "nA", "uA", true⟩, ⟨"B", "nB", "uB", true⟩] : List InventoryRow),
      row.is_assigned = true) ∧
    assign_nft_to_order false 0 "o9" "c@x"
        ⟨[⟨"A", "nA", "uA", true⟩, ⟨"B", "nB", "uB", true⟩], [⟨"o1", "e1", "A", "nA", "uA"⟩]⟩ =
      (none,
       ⟨[⟨"A", "nA", "uA", true⟩, ⟨"B", "nB", "uB", true⟩], [⟨"o1", "e1", "A", "nA", "uA"⟩]⟩) :=
  ⟨by decide,
   C4_pool_exhausted false 0 "o9" "c@x"
     ⟨[⟨"A", "nA", "uA", true⟩, ⟨"B", "nB", "uB", true⟩], [⟨"o1", "e1", "A", "nA", "uA"⟩]⟩
     (by decide) (by decide)⟩

/-- C5 counterexample: with an unassigned item still available, an injected
storage error makes `get_unassigned_nft` return `None` — exactly the value
the pool-exhausted path returns on a fully-assigned store.  The
storage-failure outcome is therefore not distinguishable from the
pool-exhausted outcome, contrary to the claim. -/
theorem C5_counterexample :
    unassignedOf (⟨[⟨"A", "nA", "uA", false⟩], []⟩ : DBState).inventory ≠ [] ∧
    (get_unassigned_nft true 0 ⟨[⟨"A", "nA", "uA", false⟩], []⟩).1 =
      (get_unassigned_nft false 0 ⟨[⟨"A", "nA", "uA", true⟩], []⟩).1 := by
  decide

/-- C5 amended: on a storage-layer error the operation rolls back, leaving
the state unchanged, and returns `None`.  That result is distinguishable
from a successful assignment (which returns an item) but identical to the
`None` returned on pool exhaustion: the storage error is swallowed into a
silently-empty result rather than surfaced as a distinct outcome. -/
theorem C5_storage_error_swallowed (r : Nat) (s : DBState) :
    get_unassigned_nft true r s = (none, s) ∧
    (∀ s2 : DBState, unassignedOf s2.inventory = [] →
      (get_unassigned_nft false r s2).1 = (get_unassigned_nft true r s).1) := by
  refine ⟨get_unassigned_err r s, ?_⟩
  intro s2 h2
  rw [get_unassigned_exhausted h2, get_unassigned_err]

theorem C5_witness :
    unassignedOf (⟨[⟨"B", "nB", "uB", true⟩], []⟩ : DBState).inventory = [] ∧
    (get_unassigned_nft false 3 ⟨[⟨"B", "nB", "uB", true⟩], []⟩).1 =
      (get_unassigned_nft true 3 ⟨[⟨"C", "nC", "uC", false⟩], []⟩).1 :=
  ⟨by decide,
   (C5_storage_error_swallowed 3 ⟨[⟨"C", "nC", "uC", false⟩], []⟩).2
     ⟨[⟨"B", "nB", "uB", true⟩], []⟩ (by decide)⟩

/-- C6: when, after `get_unassigned_nft` has claimed an item, the insertion
by `record_assignment` fails because an assignment for the request key
already exists, the insert is refused and the state is unchanged; the
claimed item is marked assigned, is referenced by no assignment row, and
stays marked assigned after any further sequence of operations. -/
theorem C6_stranded_item (r : Nat) (iu nm oid em : String) (s : DBState)
    (info : NFTInfo) (s1 : DBState)
    (h1 : get_unassigned_nft false r s = (some info, s1))
    (hdup : check_order_assigned oid s1 = true)
    (hfresh : ∀ a ∈ s.assignments, a.nft_id ≠ info.id) :
    record_assignment info.id iu nm oid em s1 = (false, s1) ∧
    (∀ row ∈ s1.inventory, row.item_id = info.id → row.is_assigned = true) ∧
    (∀ a ∈ s1.assignments, a.nft_id ≠ info.id) ∧
    (∀ ops : List Op, ∀ row ∈ (runOps ops s1).inventory,
      row.item_id = info.id → row.is_assigned = true) := by
  obtain ⟨-, row, hp, hinfo, hs1⟩ := get_unassigned_some h1
  obtain ⟨hmem, hun⟩ := pickRandom_mem hp
  have hassigned : ∀ row' ∈ s1.inventory, row'.item_id = info.id → row'.is_assigned = true := by
    intro row' hrow' hid
    rw [hs1] at hrow'
    exact markAssigned_assigned hrow' (by rw [hid, hinfo]; rfl)
  have hasg1 : s1.assignments = s.assignments := by rw [hs1]
  refine ⟨?_, hassigned, ?_, ?_⟩
  · have hc : s1.assignments.any (fun a => a.order_id == oid) = true := by
      rcases check_order_assigned_true_iff.mp hdup with ⟨a, ha, hak⟩
      exact List.any_eq_true.mpr ⟨a, ha, by simp [hak]⟩
    unfold record_assignment
    rw [if_pos hc]
  · intro a ha
    rw [hasg1] at ha
    exact hfresh a ha
  · intro ops
    have hne : s1.inventory ≠ [] := by
      rw [hs1]
      intro hnil
      have hmark : markAssigned row.item_id s.inventory = [] := hnil
      have hlen := markAssigned_length row.item_id s.inventory
      rw [hmark] at hlen
      exact (List.ne_nil_of_mem hmem) (List.length_eq_zero.mp hlen.symm)
    exact (runOps_assignedAt ops hne hassigned).2

/-- Concrete store used to witness the `C6` theorem: one unassigned item
`"A"` and an assignment for order `"o1"` referencing a different item. -/
def wS6 : DBState := ⟨[⟨"A", "nA", "uA", false⟩], [⟨"o1", "e1", "B", "nB", "uB"⟩]⟩

/-- The store `wS6` after `get_unassigned_nft` has claimed item `"A"`. -/
def wS6c : DBState := ⟨[⟨"A", "nA", "uA", true⟩], [⟨"o1", "e1", "B", "nB", "uB"⟩]⟩

theorem C6_witness :
    (get_unassigned_nft false 0 wS6 = (some ⟨"A", "nA", "uA"⟩, wS6c) ∧
     check_order_assigned "o1" wS6c = true) ∧
    (record_assignment (⟨"A", "nA", "uA"⟩ : NFTInfo).id "uX" "nX" "o1" "eX" wS6c =
        (false, wS6c) ∧
     (∀ row ∈ wS6c.inventory,
        row.item_id = (⟨"A", "nA", "uA"⟩ : NFTInfo).id → row.is_assigned = true) ∧
     (∀ a ∈ wS6c.assignments, a.nft_id ≠ (⟨"A", "nA", "uA"⟩ : NFTInfo).id) ∧
     (∀ ops : List Op, ∀ row ∈ (runOps ops wS6c).inventory,
        row.item_id = (⟨"A", "nA", "uA"⟩ : NFTInfo).id → row.is_assigned = true)) :=
  ⟨⟨by decide, by decide⟩,
   C6_stranded_item 0 "uX" "nX" "o1" "eX" wS6 ⟨"A", "nA", "uA"⟩ wS6c
     (by decide) (by decide) (by decide)⟩

/-- C7: `init_db` (seed) is idempotent — running it a second time with the
same input changes nothing — and when the store already contains rows it
inserts nothing, leaving the state exactly as it was. -/
theorem C7_seed_idempotent (items : List SeedItem) (s : DBState) :
    init_db items (init_db items s) = init_db items s ∧
    (s.inventory ≠ [] → init_db items s = s) := by
  constructor
  · by_cases h0 : s.inventory.length = 0
    · by_cases hnd : (items.map SeedItem.nft_id).Nodup
      · have h1 : init_db items s = { s with inventory := items.map seedRow } := by
          unfold init_db
          rw [if_pos h0, if_pos hnd]
        rw [h1]
        by_cases hit : items = []
        · subst hit
          unfold init_db
          simp
        · have hlen : ({ s with inventory := items.map seedRow }).inventory.length ≠ 0 := by
            simp [List.length_eq_zero, hit]
          unfold init_db
          rw [if_neg hlen]
      · have h1 : init_db items s = s := by
          unfold init_db
          rw [if_pos h0, if_neg hnd]
        rw [h1, h1]
    · have h1 : init_db items s = s := by
        unfold init_db
        rw [if_neg h0]
      rw [h1, h1]
  · intro hne
    exact init_db_nonempty hne

theorem C7_witness :
    (⟨[⟨"A", "nA", "uA", true⟩], []⟩ : DBState).inventory ≠ [] ∧
    init_db [⟨"B", "uB", "nB"⟩] ⟨[⟨"A", "nA", "uA", true⟩], []⟩ =
      ⟨[⟨"A", "nA", "uA", true⟩], []⟩ :=
  ⟨by decide,
   (C7_seed_idempotent [⟨"B", "uB", "nB"⟩] ⟨[⟨"A", "nA", "uA", true⟩], []⟩).2 (by decide)⟩

/-- C8: starting from a store with pairwise-distinct `item_id` values, after
any sequence of operations (seed, claim, allocate, record) the identifiers
are still pairwise distinct, and any item marked assigned stays marked
assigned in every later state — the flag never reverts to false. -/
theorem C8_store_invariants (ops : List Op) (s : DBState) (hnd : NodupIds s) :
    NodupIds (runOps ops s) ∧
    ∀ row0 ∈ s.inventory, row0.is_assigned = true →
      ∀ row ∈ (runOps ops s).inventory, row.item_id = row0.item_id →
        row.is_assigned = true := by
  refine ⟨runOps_nodup ops hnd, ?_⟩
  intro row0 h0mem h0as
  have hA : AssignedAt row0.item_id s := by
    intro row hmem hid
    have heq : row = row0 := List.inj_on_of_nodup_map hnd hmem h0mem hid
    rw [heq]
    exact h0as
  exact (runOps_assignedAt ops (List.ne_nil_of_mem h0mem) hA).2

/-- Concrete store used to witness the `C8` theorem. -/
def wS8 : DBState := ⟨[⟨"A", "nA", "uA", true⟩, ⟨"B", "nB", "uB", false⟩], []⟩

/-- Concrete operation sequence used to witness the `C8` theorem. -/
def wOps8 : List Op :=
  [Op.seed [⟨"C", "uC", "nC"⟩], Op.claim false 0, Op.alloc false 0 "o1" "e1",
   Op.record "X" "uX" "nX" "o2" "e2", Op.claim true 7]

theorem C8_witness :
    NodupIds wS8 ∧
    (NodupIds (runOps wOps8 wS8) ∧
     ∀ row0 ∈ wS8.inventory, row0.is_assigned = true →
       ∀ row ∈ (runOps wOps8 wS8).inventory, row.item_id = row0.item_id →
         row.is_assigned = true) :=
  ⟨by decide, C8_store_invariants wOps8 wS8 (by decide)⟩

/-- C9: `assign_nft_to_order` is atomic — an `sqlite3.Error` raised during
the claim transaction (a duplicate `order_id` on the INSERT included) rolls
back both the inventory-flag update and the assignment insert, leaving the
state unchanged; and after any successful call, every item marked assigned
was either already assigned before the call or is referenced by an
assignment row — no item is left assigned without a matching assignment. -/
theorem C9_atomic_commit_rollback (e : Bool) (r : Nat) (k em : String) (s : DBState) :
    (assign_nft_to_order true r k em s).2 = s ∧
    (∀ info s', assign_nft_to_order e r k em s = (some info, s') →
      ∀ row' ∈ s'.inventory, row'.is_assigned = true →
        (∃ row ∈ s.inventory, row.item_id = row'.item_id ∧ row.is_assigned = true) ∨
        (∃ a ∈ s'.assignments, a.nft_id = row'.item_id)) := by
  refine ⟨assign_err_state r k em s, ?_⟩
  intro info s' h row' hrow' has
  rcases assign_some_cases h with ⟨a, hf, hinfo, rfl⟩ | ⟨row, hf, he, hp, hinfo, rfl⟩
  · exact Or.inl ⟨row', hrow', rfl, has⟩
  · rcases mem_markAssigned.mp hrow' with ⟨q, hq, rfl⟩
    by_cases hqid : q.item_id = row.item_id
    · refine Or.inr ⟨⟨k, em, row.item_id, row.name, row.image_url⟩,
        List.mem_append_right _ (List.mem_singleton.mpr rfl), ?_⟩
      simp [hqid]
    · rw [if_neg hqid] at has
      exact Or.inl ⟨q, hq, by rw [if_neg hqid], has⟩

/-- Concrete store used to witness the `C9` theorem. -/
def wS9 : DBState := ⟨[⟨"A", "nA", "uA", false⟩], []⟩

/-- The store `wS9` after a successful allocation for order `"o1"`. -/
def wS9c : DBState := ⟨[⟨"A", "nA", "uA", true⟩], [⟨"o1", "e1", "A", "nA", "uA"⟩]⟩

theorem C9_witness :
    assign_nft_to_order false 0 "o1" "e1" wS9 = (some ⟨"A", "nA", "uA"⟩, wS9c) ∧
    ((∃ row ∈ wS9.inventory,
        row.item_id = (⟨"A", "nA", "uA", true⟩ : InventoryRow).item_id ∧
        row.is_assigned = true) ∨
     (∃ a ∈ wS9c.assignments,
        a.nft_id = (⟨"A", "nA", "uA", true⟩ : InventoryRow).item_id)) :=
  ⟨by decide,
   (C9_atomic_commit_rollback false 0 "o1" "e1" wS9).2 ⟨"A", "nA", "uA"⟩ wS9c (by decide)
     ⟨"A", "nA", "uA", true⟩ (by decide) (by decide)⟩

/-! ### The webhook endpoint (`app.py` `orders_paid_webhook`, lines 179-299) -/

/-- A JSON value as delivered by `json.loads` for the payload fields the
handler reads (objects and arrays never reach the checks modelled here). -/
inductive JVal where
  | jnull
  | jbool (b : Bool)
  | jint (n : Int)
  | jstr (v : String)
deriving DecidableEq

/-- Python truthiness of a field value (`bool(x)`): `None`, `0`, `False` and
the empty string are falsy. -/
def truthy : JVal → Bool
  | JVal.jnull => false
  | JVal.jbool b => b
  | JVal.jint n => n != 0
  | JVal.jstr v => v != ""

/-- Truthiness of a `data.get(key)` result: a missing key yields `None`,
which is falsy. -/
def truthyOpt : Option JVal → Bool
  | none => false
  | some v => truthy v

/-- Python `a or b`: the first operand when truthy, the second otherwise
(`data.get('contact_email') or data.get('email')`, line 181). -/
def pyOr (a b : Option JVal) : Option JVal :=
  if truthyOpt a then a else b

/-- Outcome of the Python call `float(x)`: success, `ValueError` (caught at
line 294 and mapped to 400), or `TypeError` — raised for `None` — which only
the generic `except Exception` at line 297 catches, mapping to 500. -/
inductive FloatRes where
  | ok
  | valueError
  | typeError
deriving DecidableEq

/-- Simplified model of which strings `float` accepts: nonempty digit
strings.  Only soundness on the values used below matters: `float` rejects
non-numeric strings such as `"abc"`. -/
def strFloatOk (v : String) : Bool :=
  !v.isEmpty && v.all Char.isDigit

/-- The call `float(data.get('current_total_price', 0.0))` (line 182): the
default `0.0` converts; numbers and booleans convert; `None` raises
`TypeError`; a string converts only when numeric. -/
def pyFloat : Option JVal → FloatRes
  | none => FloatRes.ok
  | some JVal.jnull => FloatRes.typeError
  | some (JVal.jbool _) => FloatRes.ok
  | some (JVal.jint _) => FloatRes.ok
  | some (JVal.jstr v) => if strFloatOk v then FloatRes.ok else FloatRes.valueError

/-- Rendering of a payload value when it is passed on to
`assign_nft_to_order` as a database key; the exact rendering is immaterial
to the claims about the handler. -/
def jvalKey : Option JVal → String
  | none => ""
  | some JVal.jnull => ""
  | some (JVal.jbool b) => if b then "True" else "False"
  | some (JVal.jint n) => toString n
  | some (JVal.jstr v) => v

/-- The fields of the parsed webhook payload that the handler reads
(lines 180-184); `none` means the key is absent from the JSON object. -/
structure Payload where
  id : Option JVal
  contact_email : Option JVal
  email : Option JVal
  current_total_price : Option JVal
  currency : Option JVal
  name : Option JVal
deriving DecidableEq

/-- The handler's response, by status code and message. -/
inductive WebhookResp where
  | badRequest (msg : String)
  | serverError (msg : String)
  | okAssigned (oid : String) (info : NFTInfo)
deriving DecidableEq

/-- Observable outcome of the handler: response, resulting database state,
and whether `assign_nft_to_order` was invoked. -/
structure WebhookOut where
  resp : WebhookResp
  state : DBState
  allocCalled : Bool
deriving DecidableEq

/-- `orders_paid_webhook` from line 179 on (after JSON parsing): reads the
fields, converts `current_total_price` with `float` (line 182; a
`ValueError` is answered with a 400 conversion error, a `TypeError` falls
through to the generic 500 handler), rejects the request with
400 "Missing essential order data" when any of order id, customer email,
currency or order name is absent or falsy (lines 186-188), and otherwise
invokes `assign_nft_to_order`, answering 200 on success and 500 when it
returns `None` (lines 192-286). -/
def orders_paid_webhook (e : Bool) (r : Nat) (p : Payload) (s : DBState) : WebhookOut :=
  match pyFloat p.current_total_price with
  | FloatRes.valueError => ⟨WebhookResp.badRequest "Data type conversion error", s, false⟩
  | FloatRes.typeError => ⟨WebhookResp.serverError "An unexpected error occurred", s, false⟩
  | FloatRes.ok =>
    if truthyOpt p.id && truthyOpt (pyOr p.contact_email p.email) &&
        truthyOpt p.currency && truthyOpt p.name then
      match assign_nft_to_order e r (jvalKey p.id) (jvalKey (pyOr p.contact_email p.email)) s with
      | (some info, s') => ⟨WebhookResp.okAssigned (jvalKey p.id) info, s', true⟩
      | (none, s') => ⟨WebhookResp.serverError "Failed to assign NFT", s', true⟩
    else ⟨WebhookResp.badRequest "Missing essential order data", s, false⟩

/-- C10 counterexample: a payload with the order id absent whose
`current_total_price` is JSON `null` makes `float(None)` raise `TypeError`,
so the handler answers with the generic 500, not with
400 "Missing essential order data" as the claim requires for every payload
missing an essential field. -/
theorem C10_counterexample :
    truthyOpt (Payload.mk none (some (JVal.jstr "c@x")) none (some JVal.jnull)
      (some (JVal.jstr "USD")) (some (JVal.jstr "#1001"))).id = false ∧
    (orders_paid_webhook false 0
      (Payload.mk none (some (JVal.jstr "c@x")) none (some JVal.jnull)
        (some (JVal.jstr "USD")) (some (JVal.jstr "#1001")))
      ⟨[⟨"A", "nA", "uA", false⟩], []⟩).resp =
      WebhookResp.serverError "An unexpected error occurred" ∧
    (orders_paid_webhook false 0
      (Payload.mk none (some (JVal.jstr "c@x")) none (some JVal.jnull)
        (some (JVal.jstr "USD")) (some (JVal.jstr "#1001")))
      ⟨[⟨"A", "nA", "uA", false⟩], []⟩).resp ≠
      WebhookResp.badRequest "Missing essential order data" := by
  decide

/-- C10 amended: provided `current_total_price` converts with `float`
(it is absent, numeric, boolean, or a numeric string), a payload in which
any of order id, customer email (`contact_email or email`), currency or
order name is absent or falsy is rejected with
400 "Missing essential order data", without invoking the allocation
operation and without changing any stored state. -/
theorem C10_webhook_rejects_missing_fields (e : Bool) (r : Nat) (p : Payload) (s : DBState)
    (hconv : pyFloat p.current_total_price = FloatRes.ok)
    (hmiss : truthyOpt p.id = false ∨ truthyOpt (pyOr p.contact_email p.email) = false ∨
      truthyOpt p.currency = false ∨ truthyOpt p.name = false) :
    orders_paid_webhook e r p s =
      ⟨WebhookResp.badRequest "Missing essential order data", s, false⟩ := by
  unfold orders_paid_webhook
  rw [hconv]
  have hcond : (truthyOpt p.id && truthyOpt (pyOr p.contact_email p.email) &&
      truthyOpt p.currency && truthyOpt p.name) = false := by
    rcases hmiss with h | h | h | h <;> simp [h]
  rw [hcond]
  rfl

theorem C10_witness :
    pyFloat (Payload.mk (some (JVal.jint 0)) (some (JVal.jstr "c@x")) none
      (some (JVal.jint 3)) (some (JVal.jstr "USD")) (some (JVal.jstr "#1001"))).current_total_price =
      FloatRes.ok ∧
    truthyOpt (Payload.mk (some (JVal.jint 0)) (some (JVal.jstr "c@x")) none
      (some (JVal.jint 3)) (some (JVal.jstr "USD")) (some (JVal.jstr "#1001"))).id = false ∧
    orders_paid_webhook false 0
      (Payload.mk (some (JVal.jint 0)) (some (JVal.jstr "c@x")) none
        (some (JVal.jint 3)) (some (JVal.jstr "USD")) (some (JVal.jstr "#1001")))
      ⟨[⟨"A", "nA", "uA", false⟩], []⟩ =
      ⟨WebhookResp.badRequest "Missing essential order data",
       ⟨[⟨"A", "nA", "uA", false⟩], []⟩, false⟩ :=
  ⟨by decide, by decide,
   C10_webhook_rejects_missing_fields false 0
     (Payload.mk (some (JVal.jint 0)) (some (JVal.jstr "c@x")) none
       (some (JVal.jint 3)) (some (JVal.jstr "USD")) (some (JVal.jstr "#1001")))
     ⟨[⟨"A", "nA", "uA", false⟩], []⟩ (by decide) (Or.inl (by decide))⟩
